import Mathlib

/-!
Verification of the DCF valuation engine in `src/dcf_model.py`
(class `DCFModel`: deterministic two-stage discounted-cash-flow valuation and
Monte Carlo sensitivity analysis).

The Python floats are modelled as exact rationals (`ℚ`).  The stochastic
sampling step `norm.rvs` (an external library call) is modelled by passing the
two drawn sequences `simulated_waccs`/`simulated_gs` in as explicit lists, so
every theorem quantifying over those lists covers every sequence the sampler
could produce; `norm_rvs_checked` additionally models the sampler's argument
validation (scipy rejects a negative scale with `ValueError`, and a zero
scale degenerates to a point mass at the mean) from scipy's documented
contract.  Python's `ZeroDivisionError` is modelled by `Option`-valued
"checked" variants of each routine in which every division whose divisor is a
runtime value returns `none` when the divisor is zero; the unchecked functions
use total field division on `ℚ`.
-/

/-- Constructor parameters of `class DCFModel` (`dcf_model.py` lines 10-22).
`explicit_years` is an `ℕ` matching the integer parameter. -/
structure DCFModel where
  initial_fcf : ℚ
  net_debt : ℚ
  shares_outstanding : ℚ
  explicit_years : ℕ
deriving Repr, DecidableEq

/-- The two-stage growth schedule
`[initial_growth] * 2 + [step_down_growth] * (explicit_years - 2)` built at
`dcf_model.py` line 88 (deterministic path) and line 148 (Monte Carlo path).
Python's negative list-repeat count yields `[]`, matching truncated `ℕ`
subtraction. -/
def growthSchedule (m : DCFModel) (initial_growth step_down_growth : ℚ) : List ℚ :=
  List.replicate 2 initial_growth ++ List.replicate (m.explicit_years - 2) step_down_growth

/-- `DCFModel._project_and_discount_fcfs` (`dcf_model.py` lines 34-55): the
loop `for t in range(1, explicit_years + 1)` multiplies the running FCF by
`1 + growth_rates[t-1]` and accumulates `fcf_t / (1 + wacc) ** t`; here the
loop index is shifted to `t0 = t - 1` ranging over `range explicit_years`.
Python indexing `growth_rates[t-1]` presupposes `explicit_years ≤ length`
(true at every call site in the file); `getD` supplies an unreachable default.
Returns `(pv_of_explicit_flows, fcf_T)`. -/
def project_and_discount_fcfs (m : DCFModel) (wacc : ℚ) (growth_rates : List ℚ) : ℚ × ℚ :=
  (List.range m.explicit_years).foldl
    (fun acc t0 =>
      let fcf_t := acc.2 * (1 + growth_rates.getD t0 0)
      (acc.1 + fcf_t / (1 + wacc) ^ (t0 + 1), fcf_t))
    (0, m.initial_fcf)

/-- `DCFModel._calculate_terminal_value` (`dcf_model.py` lines 57-75): returns
`0.0` when `wacc <= long_term_growth_rate`, otherwise the Gordon Growth value
`fcf_last_year * (1 + g) / (wacc - g) / (1 + wacc) ** explicit_years`. -/
def calculate_terminal_value (m : DCFModel) (fcf_last_year wacc long_term_growth_rate : ℚ) : ℚ :=
  if wacc ≤ long_term_growth_rate then 0
  else
    fcf_last_year * (1 + long_term_growth_rate) / (wacc - long_term_growth_rate)
      / (1 + wacc) ^ m.explicit_years

/-- The dictionary returned by `run_deterministic_valuation`
(`dcf_model.py` lines 114-123), one field per key. -/
structure ValuationResult where
  enterprise_value : ℚ
  equity_value : ℚ
  fair_value_per_share : ℚ
  pv_explicit_fcfs : ℚ
  pv_terminal_value : ℚ
  projected_fcfs : List ℚ
  wacc : ℚ
  long_term_growth : ℚ
deriving Repr, DecidableEq

/-- The second projection loop of `run_deterministic_valuation`
(`dcf_model.py` lines 107-111) building `real_fcf_series`
(year 0 through year T, undiscounted). -/
def realFcfSeries (m : DCFModel) (growth_rates : List ℚ) : List ℚ :=
  ((List.range m.explicit_years).foldl
    (fun (acc : List ℚ × ℚ) t0 =>
      let fcf_t := acc.2 * (1 + growth_rates.getD t0 0)
      (acc.1 ++ [fcf_t], fcf_t))
    ([m.initial_fcf], m.initial_fcf)).1

/-- `DCFModel.run_deterministic_valuation` (`dcf_model.py` lines 77-123). -/
def run_deterministic_valuation (m : DCFModel)
    (wacc long_term_growth_rate initial_growth step_down_growth : ℚ) : ValuationResult :=
  let growth_rates := growthSchedule m initial_growth step_down_growth
  let pr := project_and_discount_fcfs m wacc growth_rates
  let pv_terminal_value := calculate_terminal_value m pr.2 wacc long_term_growth_rate
  let enterprise_value := pr.1 + pv_terminal_value
  let equity_value := enterprise_value - m.net_debt
  let fair_value_per_share := equity_value / m.shares_outstanding
  ⟨enterprise_value, equity_value, fair_value_per_share, pr.1, pv_terminal_value,
    realFcfSeries m growth_rates, wacc, long_term_growth_rate⟩

/-- The clamp `np.maximum(rate, 0.01)` applied to both sampled arrays
(`dcf_model.py` lines 144-145). -/
def clampRate (x : ℚ) : ℚ := max x (1 / 100)

/-- The per-draw value appended inside the Monte Carlo loop
(`dcf_model.py` lines 158-170):
`(pv_explicit_fcfs + pv_terminal_value - net_debt) / shares_outstanding`. -/
def perShareValue (m : DCFModel) (wacc g initial_growth step_down_growth : ℚ) : ℚ :=
  let pr := project_and_discount_fcfs m wacc (growthSchedule m initial_growth step_down_growth)
  (pr.1 + calculate_terminal_value m pr.2 wacc g - m.net_debt) / m.shares_outstanding

/-- The `results_list` accumulated by the loop of `run_monte_carlo_sensitivity`
(`dcf_model.py` lines 150-171): for each `i in range(simulations)`, when the
clamped `wacc_i` strictly exceeds the clamped `g_i`, the kernel value is
computed and, when `shares_outstanding > 0`, its per-share value is appended.
The clamped arrays `simulated_waccs`/`simulated_gs` of lines 144-145 are the
`map clampRate` images of the raw drawn sequences.  `mcStep` is the loop body
(`dcf_model.py` lines 152-170) acting on the running `results_list`. -/
def mcStep (m : DCFModel) (clamped_waccs clamped_gs growth_rates : List ℚ)
    (results_list : List ℚ) (i : ℕ) : List ℚ :=
  let wacc_i := clamped_waccs.getD i 0
  let g_i := clamped_gs.getD i 0
  if g_i < wacc_i then
    let pr := project_and_discount_fcfs m wacc_i growth_rates
    let pv_terminal_value := calculate_terminal_value m pr.2 wacc_i g_i
    let enterprise_value := pr.1 + pv_terminal_value
    let equity_value := enterprise_value - m.net_debt
    if 0 < m.shares_outstanding then
      results_list ++ [equity_value / m.shares_outstanding]
    else results_list
  else results_list

def mcResultsList (m : DCFModel) (simulated_waccs simulated_gs : List ℚ)
    (initial_growth step_down_growth : ℚ) (simulations : ℕ) : List ℚ :=
  (List.range simulations).foldl
    (mcStep m (simulated_waccs.map clampRate) (simulated_gs.map clampRate)
      (growthSchedule m initial_growth step_down_growth))
    []

/-- `np.mean`: sum divided by length. -/
def npMean (l : List ℚ) : ℚ := l.sum / l.length

/-- The population variance `np.var`, i.e. the square of `np.std`
(`dcf_model.py` line 178).  `np.std` itself is the (generally irrational)
square root of this quantity; it is `0` exactly when this is `0`, and in the
empty-results branch the code returns the literal `0` without computing any
root. -/
def npVariancePop (l : List ℚ) : ℚ := (l.map (fun x => (x - npMean l) ^ 2)).sum / l.length

/-- Ascending sort, as performed internally by `np.percentile` / `np.median`.
(The sorting algorithm is irrelevant: any sorted permutation of a list of
rationals is the same list.) -/
def sortAsc (l : List ℚ) : List ℚ := l.insertionSort (· ≤ ·)

/-- `np.percentile(l, q)` with the default linear interpolation between order
statistics: virtual index `idx = q * (n - 1) / 100` into the ascending sort,
value `s[⌊idx⌋] + (idx - ⌊idx⌋) * (s[⌈idx⌉] - s[⌊idx⌋])`.  `np.median` is the
`q = 50` case. -/
def npPercentile (l : List ℚ) (q : ℚ) : ℚ :=
  let s := sortAsc l
  let idx : ℚ := q * ((s.length : ℚ) - 1) / 100
  let lo := (⌊idx⌋).toNat
  let hi := (⌈idx⌉).toNat
  s.getD lo 0 + (idx - (⌊idx⌋ : ℚ)) * (s.getD hi 0 - s.getD lo 0)

/-- The dictionary returned by `run_monte_carlo_sensitivity`
(`dcf_model.py` lines 174-180).  `stdevSq` carries the square of the reported
`StDev` (see `npVariancePop`); `ci_low`/`ci_high` are the two entries of the
`95% Confidence Interval` pair. -/
structure SimulationSummary where
  count : ℕ
  mean : ℚ
  median : ℚ
  stdevSq : ℚ
  ci_low : ℚ
  ci_high : ℚ
deriving Repr, DecidableEq

/-- `DCFModel.run_monte_carlo_sensitivity` (`dcf_model.py` lines 125-180),
with the raw drawn sequences passed in explicitly (see the file docstring).
Each statistic falls back to `0` (and the interval to `[0, 0]`) when
`results_list` is empty, mirroring the `... if results_list else 0` guards. -/
def run_monte_carlo_sensitivity (m : DCFModel) (simulated_waccs simulated_gs : List ℚ)
    (initial_growth step_down_growth : ℚ) (simulations : ℕ) : SimulationSummary :=
  let results_list :=
    mcResultsList m simulated_waccs simulated_gs initial_growth step_down_growth simulations
  ⟨results_list.length,
    if results_list.isEmpty then 0 else npMean results_list,
    if results_list.isEmpty then 0 else npPercentile results_list 50,
    if results_list.isEmpty then 0 else npVariancePop results_list,
    if results_list.isEmpty then 0 else npPercentile results_list (5 / 2),
    if results_list.isEmpty then 0 else npPercentile results_list (195 / 2)⟩

/-- The all-zero summary returned when no draw survives. -/
def zeroSummary : SimulationSummary := ⟨0, 0, 0, 0, 0, 0⟩

/-- Checked division: `none` models Python's `ZeroDivisionError`. -/
def divOpt (a b : ℚ) : Option ℚ := if b = 0 then none else some (a / b)

/-- Loop body of the checked variant of `project_and_discount_fcfs`. -/
def projectStepChecked (wacc : ℚ) (growth_rates : List ℚ) (acc : Option (ℚ × ℚ)) (t0 : ℕ) :
    Option (ℚ × ℚ) :=
  acc.bind fun pr =>
    let fcf_t := pr.2 * (1 + growth_rates.getD t0 0)
    (divOpt fcf_t ((1 + wacc) ^ (t0 + 1))).map fun pv_fcf_t => (pr.1 + pv_fcf_t, fcf_t)

/-- Checked variant of `project_and_discount_fcfs`: each in-loop division
`fcf_t / (1 + wacc) ** t` goes through `divOpt`. -/
def project_and_discount_fcfs_checked (m : DCFModel) (wacc : ℚ) (growth_rates : List ℚ) :
    Option (ℚ × ℚ) :=
  (List.range m.explicit_years).foldl (projectStepChecked wacc growth_rates)
    (some (0, m.initial_fcf))

/-- Checked variant of `calculate_terminal_value`. -/
def calculate_terminal_value_checked (m : DCFModel) (fcf_last_year wacc g : ℚ) : Option ℚ :=
  if wacc ≤ g then some 0
  else
    (divOpt (fcf_last_year * (1 + g)) (wacc - g)).bind fun terminal_value_at_T =>
      divOpt terminal_value_at_T ((1 + wacc) ^ m.explicit_years)

/-- Checked variant of `run_deterministic_valuation`: `none` exactly when some
division in the Python code would raise `ZeroDivisionError`. -/
def run_deterministic_valuation_checked (m : DCFModel)
    (wacc long_term_growth_rate initial_growth step_down_growth : ℚ) : Option ValuationResult :=
  let growth_rates := growthSchedule m initial_growth step_down_growth
  (project_and_discount_fcfs_checked m wacc growth_rates).bind fun pr =>
    (calculate_terminal_value_checked m pr.2 wacc long_term_growth_rate).bind fun tv =>
      (divOpt (pr.1 + tv - m.net_debt) m.shares_outstanding).map fun fvps =>
        ⟨pr.1 + tv, pr.1 + tv - m.net_debt, fvps, pr.1, tv,
          realFcfSeries m growth_rates, wacc, long_term_growth_rate⟩

/-- Checked variant of the Monte Carlo loop and statistics: every division by
a runtime quantity (the in-loop kernel divisions, the division by
`shares_outstanding`, and the divisions by `len(results_list)` inside
`np.mean`/`np.std`) goes through `divOpt`.  Divisions by the literal `100`
inside `np.percentile` stay total. -/
def mcStepChecked (m : DCFModel) (clamped_waccs clamped_gs growth_rates : List ℚ)
    (acc : Option (List ℚ)) (i : ℕ) : Option (List ℚ) :=
  acc.bind fun results_list =>
    let wacc_i := clamped_waccs.getD i 0
    let g_i := clamped_gs.getD i 0
    if g_i < wacc_i then
      (project_and_discount_fcfs_checked m wacc_i growth_rates).bind fun pr =>
        (calculate_terminal_value_checked m pr.2 wacc_i g_i).bind fun tv =>
          if 0 < m.shares_outstanding then
            (divOpt (pr.1 + tv - m.net_debt) m.shares_outstanding).map fun v =>
              results_list ++ [v]
          else some results_list
    else some results_list

def run_monte_carlo_checked (m : DCFModel) (simulated_waccs simulated_gs : List ℚ)
    (initial_growth step_down_growth : ℚ) (simulations : ℕ) : Option SimulationSummary :=
  ((List.range simulations).foldl
    (mcStepChecked m (simulated_waccs.map clampRate) (simulated_gs.map clampRate)
      (growthSchedule m initial_growth step_down_growth))
    (some [])).bind fun results_list =>
      if results_list.isEmpty then
        some ⟨results_list.length, 0, 0, 0, 0, 0⟩
      else
        (divOpt results_list.sum results_list.length).bind fun mean_v =>
          (divOpt (results_list.map (fun x => (x - mean_v) ^ 2)).sum results_list.length).map
            fun var_v =>
              ⟨results_list.length, mean_v, npPercentile results_list 50, var_v,
                npPercentile results_list (5 / 2), npPercentile results_list (195 / 2)⟩

/-- The sequence produced by a successful `norm.rvs(loc, scale, size)` call:
the point mass at `loc` when `scale = 0`, otherwise the random draws —
supplied here as the explicit `draws` parameter, so a statement quantifying
over `draws` covers every sequence the sampler could return. -/
def norm_rvs_draws (loc scale : ℚ) (size : ℕ) (draws : List ℚ) : List ℚ :=
  if scale = 0 then List.replicate size loc else draws

/-- The sampling step `norm.rvs(loc=mean, scale=stdev, size=simulations)` at
`dcf_model.py` lines 140-141.  scipy ships no code in this repository, so
this is modelled from the documented contract of
`scipy.stats.rv_continuous.rvs`: argument validation rejects a negative
`scale` with `ValueError` ("Domain error in arguments"), modelled as `none`;
a nonnegative `scale` succeeds, with `scale = 0` degenerating to the point
mass at `loc` (see `norm_rvs_draws`). -/
def norm_rvs_checked (loc scale : ℚ) (size : ℕ) (draws : List ℚ) : Option (List ℚ) :=
  if scale < 0 then none else some (norm_rvs_draws loc scale size draws)

/-- `run_monte_carlo_sensitivity` including its sampling step, checked: the
two `norm.rvs` calls of `dcf_model.py` lines 140-141 run first (each may fail
argument validation), then the clamped per-draw loop and the statistics. -/
def run_monte_carlo_with_sampling_checked (m : DCFModel)
    (wacc_mean wacc_stdev g_mean g_stdev : ℚ) (wacc_draws g_draws : List ℚ)
    (initial_growth step_down_growth : ℚ) (simulations : ℕ) : Option SimulationSummary :=
  (norm_rvs_checked wacc_mean wacc_stdev simulations wacc_draws).bind fun simulated_waccs =>
    (norm_rvs_checked g_mean g_stdev simulations g_draws).bind fun simulated_gs =>
      run_monte_carlo_checked m simulated_waccs simulated_gs initial_growth
        step_down_growth simulations

/-- Closed-form running FCF: `fcfAt m gs t` is the undiscounted FCF of year
`t`, namely `initial_fcf * prod_{i=1..t} (1 + gs[i-1])`. -/
def fcfAt (m : DCFModel) (gs : List ℚ) (t : ℕ) : ℚ :=
  m.initial_fcf * ((gs.take t).map (fun g => 1 + g)).prod

theorem fcfAt_zero (m : DCFModel) (gs : List ℚ) : fcfAt m gs 0 = m.initial_fcf := by
  simp [fcfAt]

theorem fcfAt_succ (m : DCFModel) (gs : List ℚ) (n : ℕ) (h : n < gs.length) :
    fcfAt m gs (n + 1) = fcfAt m gs n * (1 + gs.getD n 0) := by
  unfold fcfAt
  rw [List.take_succ, List.map_append, List.prod_append, List.getD_eq_getElem?_getD,
    List.getElem?_eq_getElem h]
  simp [mul_assoc]

theorem project_loop_eq (m : DCFModel) (w : ℚ) (gs : List ℚ) (n : ℕ) (hn : n ≤ gs.length) :
    (List.range n).foldl
      (fun acc t0 =>
        let fcf_t := acc.2 * (1 + gs.getD t0 0)
        (acc.1 + fcf_t / (1 + w) ^ (t0 + 1), fcf_t))
      (0, m.initial_fcf)
    = (∑ t ∈ Finset.range n, fcfAt m gs (t + 1) / (1 + w) ^ (t + 1), fcfAt m gs n) := by
  induction n with
  | zero => simp [fcfAt]
  | succ k ih =>
    have hk : k < gs.length := hn
    rw [List.range_succ, List.foldl_append, ih hk.le]
    simp only [List.foldl_cons, List.foldl_nil]
    rw [Finset.sum_range_succ, ← fcfAt_succ m gs k hk]

theorem project_and_discount_fcfs_eq (m : DCFModel) (w : ℚ) (gs : List ℚ)
    (h : m.explicit_years ≤ gs.length) :
    project_and_discount_fcfs m w gs
      = (∑ t ∈ Finset.range m.explicit_years, fcfAt m gs (t + 1) / (1 + w) ^ (t + 1),
         fcfAt m gs m.explicit_years) := by
  unfold project_and_discount_fcfs
  exact project_loop_eq m w gs m.explicit_years h

theorem growthSchedule_length (m : DCFModel) (ig sdg : ℚ) (h : 2 ≤ m.explicit_years) :
    (growthSchedule m ig sdg).length = m.explicit_years := by
  simp [growthSchedule]
  omega

/-- C1: for a profile with positive `shares_outstanding` and at least two
explicit years, and rates with `wacc > g` and `wacc ≠ -1`,
`run_deterministic_valuation` returns Enterprise Value
`Σ_{t=1..T} fcf_t / (1+wacc)^t + (fcf_T (1+g) / (wacc-g)) / (1+wacc)^T`
over the two-stage growth schedule (which has length `T`), with
`fcf_t = initial_fcf * Π_{i≤t} (1 + schedule[i-1])`, Equity Value
`= Enterprise Value - net_debt`, and Fair Value Per Share
`= Equity Value / shares_outstanding`. -/
theorem C1_deterministic_closed_form (m : DCFModel)
    (wacc g initial_growth step_down_growth : ℚ)
    (hshares : 0 < m.shares_outstanding) (hT : 2 ≤ m.explicit_years)
    (hgw : g < wacc) (hw : wacc ≠ -1) :
    (growthSchedule m initial_growth step_down_growth).length = m.explicit_years ∧
    (run_deterministic_valuation m wacc g initial_growth step_down_growth).enterprise_value
      = (∑ t ∈ Finset.range m.explicit_years,
          fcfAt m (growthSchedule m initial_growth step_down_growth) (t + 1)
            / (1 + wacc) ^ (t + 1))
        + fcfAt m (growthSchedule m initial_growth step_down_growth) m.explicit_years * (1 + g)
            / (wacc - g) / (1 + wacc) ^ m.explicit_years ∧
    (run_deterministic_valuation m wacc g initial_growth step_down_growth).equity_value
      = (run_deterministic_valuation m wacc g initial_growth step_down_growth).enterprise_value
        - m.net_debt ∧
    (run_deterministic_valuation m wacc g initial_growth step_down_growth).fair_value_per_share
      = (run_deterministic_valuation m wacc g initial_growth step_down_growth).equity_value
        / m.shares_outstanding := by
  have hlen := growthSchedule_length m initial_growth step_down_growth hT
  refine ⟨hlen, ?_, rfl, rfl⟩
  show (project_and_discount_fcfs m wacc _).1
      + calculate_terminal_value m (project_and_discount_fcfs m wacc _).2 wacc g = _
  rw [project_and_discount_fcfs_eq m wacc _ hlen.ge]
  rw [calculate_terminal_value, if_neg (not_le.mpr hgw)]

/-- Witness for C1 at `initial_fcf = 100`, `net_debt = 10`, `shares = 5`,
`T = 2`, `wacc = 1/10`, `g = 1/50`, stage growths `1/5` and `0`. -/
theorem C1_witness :
    (0 : ℚ) < (⟨100, 10, 5, 2⟩ : DCFModel).shares_outstanding ∧
    2 ≤ (⟨100, 10, 5, 2⟩ : DCFModel).explicit_years ∧
    (1 / 50 : ℚ) < 1 / 10 ∧ (1 / 10 : ℚ) ≠ -1 ∧
    ((growthSchedule ⟨100, 10, 5, 2⟩ (1 / 5) 0).length
        = (⟨100, 10, 5, 2⟩ : DCFModel).explicit_years ∧
      (run_deterministic_valuation ⟨100, 10, 5, 2⟩ (1 / 10) (1 / 50) (1 / 5) 0).enterprise_value
        = (∑ t ∈ Finset.range (⟨100, 10, 5, 2⟩ : DCFModel).explicit_years,
            fcfAt ⟨100, 10, 5, 2⟩ (growthSchedule ⟨100, 10, 5, 2⟩ (1 / 5) 0) (t + 1)
              / (1 + 1 / 10) ^ (t + 1))
          + fcfAt ⟨100, 10, 5, 2⟩ (growthSchedule ⟨100, 10, 5, 2⟩ (1 / 5) 0)
              (⟨100, 10, 5, 2⟩ : DCFModel).explicit_years * (1 + 1 / 50)
              / (1 / 10 - 1 / 50) / (1 + 1 / 10) ^ (⟨100, 10, 5, 2⟩ : DCFModel).explicit_years ∧
      (run_deterministic_valuation ⟨100, 10, 5, 2⟩ (1 / 10) (1 / 50) (1 / 5) 0).equity_value
        = (run_deterministic_valuation ⟨100, 10, 5, 2⟩ (1 / 10) (1 / 50) (1 / 5) 0).enterprise_value
          - (⟨100, 10, 5, 2⟩ : DCFModel).net_debt ∧
      (run_deterministic_valuation ⟨100, 10, 5, 2⟩ (1 / 10) (1 / 50) (1 / 5) 0).fair_value_per_share
        = (run_deterministic_valuation ⟨100, 10, 5, 2⟩ (1 / 10) (1 / 50) (1 / 5) 0).equity_value
          / (⟨100, 10, 5, 2⟩ : DCFModel).shares_outstanding) :=
  ⟨by norm_num, by norm_num, by norm_num, by norm_num,
    C1_deterministic_closed_form ⟨100, 10, 5, 2⟩ (1 / 10) (1 / 50) (1 / 5) 0
      (by norm_num) (by norm_num) (by norm_num) (by norm_num)⟩

theorem getD_map_clampRate (xs : List ℚ) (i : ℕ) (h : i < xs.length) :
    (xs.map clampRate).getD i 0 = clampRate (xs.getD i 0) := by
  simp [List.getD_eq_getElem?_getD, List.getElem?_map, List.getElem?_eq_getElem h]

theorem mcStep_surviving (m : DCFModel) (cw cg grs : List ℚ) (acc : List ℚ) (i : ℕ)
    (hcond : cg.getD i 0 < cw.getD i 0) (hs : 0 < m.shares_outstanding) :
    mcStep m cw cg grs acc i
      = acc ++ [((project_and_discount_fcfs m (cw.getD i 0) grs).1
          + calculate_terminal_value m (project_and_discount_fcfs m (cw.getD i 0) grs).2
              (cw.getD i 0) (cg.getD i 0) - m.net_debt) / m.shares_outstanding] := by
  simp only [mcStep]
  rw [if_pos hcond, if_pos hs]

theorem mcStep_discarded (m : DCFModel) (cw cg grs : List ℚ) (acc : List ℚ) (i : ℕ)
    (hcond : ¬ cg.getD i 0 < cw.getD i 0) :
    mcStep m cw cg grs acc i = acc := by
  simp only [mcStep]
  rw [if_neg hcond]

theorem mcStep_no_shares (m : DCFModel) (cw cg grs : List ℚ) (acc : List ℚ) (i : ℕ)
    (hs : ¬ 0 < m.shares_outstanding) :
    mcStep m cw cg grs acc i = acc := by
  simp only [mcStep]
  by_cases hcond : cg.getD i 0 < cw.getD i 0
  · rw [if_pos hcond, if_neg hs]
  · rw [if_neg hcond]

theorem mcLoop_eq (m : DCFModel) (cw cg grs : List ℚ) (l : List ℕ) (acc : List ℚ)
    (hs : 0 < m.shares_outstanding) :
    l.foldl (mcStep m cw cg grs) acc
    = acc ++ (l.filter (fun i => decide (cg.getD i 0 < cw.getD i 0))).map
        (fun i =>
          ((project_and_discount_fcfs m (cw.getD i 0) grs).1
            + calculate_terminal_value m (project_and_discount_fcfs m (cw.getD i 0) grs).2
                (cw.getD i 0) (cg.getD i 0) - m.net_debt) / m.shares_outstanding) := by
  induction l generalizing acc with
  | nil => simp
  | cons i l ih =>
    rw [List.foldl_cons, List.filter_cons]
    by_cases hcond : cg.getD i 0 < cw.getD i 0
    · rw [mcStep_surviving m cw cg grs acc i hcond hs, ih, if_pos (decide_eq_true hcond)]
      simp
    · rw [mcStep_discarded m cw cg grs acc i hcond, ih,
        if_neg (fun hdec => hcond (of_decide_eq_true hdec))]

/-- C2: with `shares_outstanding > 0` and draw sequences of length `n`, the
collected `results_list` is exactly the image, over the index positions whose
clamped discount rate strictly exceeds their clamped growth rate, of the
per-share value at the clamped pair; discarded indices contribute nothing, and
`Count` is the number of surviving indices. -/
theorem C2_clamp_and_discard (m : DCFModel) (simulated_waccs simulated_gs : List ℚ)
    (initial_growth step_down_growth : ℚ) (n : ℕ)
    (hshares : 0 < m.shares_outstanding)
    (hwlen : simulated_waccs.length = n) (hglen : simulated_gs.length = n) :
    mcResultsList m simulated_waccs simulated_gs initial_growth step_down_growth n
      = ((List.range n).filter
          (fun i => decide (clampRate (simulated_gs.getD i 0)
            < clampRate (simulated_waccs.getD i 0)))).map
          (fun i => perShareValue m (clampRate (simulated_waccs.getD i 0))
            (clampRate (simulated_gs.getD i 0)) initial_growth step_down_growth)
    ∧ (run_monte_carlo_sensitivity m simulated_waccs simulated_gs
          initial_growth step_down_growth n).count
      = ((List.range n).filter
          (fun i => decide (clampRate (simulated_gs.getD i 0)
            < clampRate (simulated_waccs.getD i 0)))).length := by
  have hmain : mcResultsList m simulated_waccs simulated_gs initial_growth step_down_growth n
      = ((List.range n).filter
          (fun i => decide (clampRate (simulated_gs.getD i 0)
            < clampRate (simulated_waccs.getD i 0)))).map
          (fun i => perShareValue m (clampRate (simulated_waccs.getD i 0))
            (clampRate (simulated_gs.getD i 0)) initial_growth step_down_growth) := by
    unfold mcResultsList
    rw [mcLoop_eq m _ _ _ _ _ hshares, List.nil_append]
    have hfilter : (List.range n).filter
        (fun i => decide ((simulated_gs.map clampRate).getD i 0
          < (simulated_waccs.map clampRate).getD i 0))
        = (List.range n).filter
          (fun i => decide (clampRate (simulated_gs.getD i 0)
            < clampRate (simulated_waccs.getD i 0))) := by
      refine List.filter_congr ?_
      intro i hi
      have hin : i < n := List.mem_range.mp hi
      rw [getD_map_clampRate _ _ (show i < simulated_waccs.length by omega),
        getD_map_clampRate _ _ (show i < simulated_gs.length by omega)]
    rw [hfilter]
    refine List.map_congr_left ?_
    intro i hi
    have hin : i < n := List.mem_range.mp (List.mem_of_mem_filter hi)
    rw [getD_map_clampRate _ _ (show i < simulated_waccs.length by omega),
      getD_map_clampRate _ _ (show i < simulated_gs.length by omega)]
    rfl
  refine ⟨hmain, ?_⟩
  show (mcResultsList m simulated_waccs simulated_gs initial_growth step_down_growth n).length = _
  rw [hmain, List.length_map]

/-- Witness for C2 with two draws: draw 0 survives
(`clamp 1/10 > clamp 1/25`), draw 1 is discarded (`clamp 1/50 < clamp 3/25`). -/
theorem C2_witness :
    (0 : ℚ) < (⟨100, 10, 5, 2⟩ : DCFModel).shares_outstanding ∧
    ([(1 : ℚ) / 10, 1 / 50]).length = 2 ∧ ([(1 : ℚ) / 25, 3 / 25]).length = 2 ∧
    (mcResultsList ⟨100, 10, 5, 2⟩ [1 / 10, 1 / 50] [1 / 25, 3 / 25] (1 / 5) 0 2
      = ((List.range 2).filter
          (fun i => decide (clampRate (([(1 : ℚ) / 25, 3 / 25]).getD i 0)
            < clampRate (([(1 : ℚ) / 10, 1 / 50]).getD i 0)))).map
          (fun i => perShareValue ⟨100, 10, 5, 2⟩
            (clampRate (([(1 : ℚ) / 10, 1 / 50]).getD i 0))
            (clampRate (([(1 : ℚ) / 25, 3 / 25]).getD i 0)) (1 / 5) 0)
    ∧ (run_monte_carlo_sensitivity ⟨100, 10, 5, 2⟩ [1 / 10, 1 / 50] [1 / 25, 3 / 25]
          (1 / 5) 0 2).count
      = ((List.range 2).filter
          (fun i => decide (clampRate (([(1 : ℚ) / 25, 3 / 25]).getD i 0)
            < clampRate (([(1 : ℚ) / 10, 1 / 50]).getD i 0)))).length) :=
  ⟨by norm_num, rfl, rfl,
    C2_clamp_and_discard ⟨100, 10, 5, 2⟩ [1 / 10, 1 / 50] [1 / 25, 3 / 25] (1 / 5) 0 2
      (by norm_num) rfl rfl⟩

theorem divOpt_of_ne (a b : ℚ) (hb : b ≠ 0) : divOpt a b = some (a / b) := by
  rw [divOpt, if_neg hb]

theorem projectStepChecked_some (w : ℚ) (gs : List ℚ) (acc : ℚ × ℚ) (t0 : ℕ)
    (hw : (1 : ℚ) + w ≠ 0) :
    projectStepChecked w gs (some acc) t0
      = some (acc.1 + acc.2 * (1 + gs.getD t0 0) / (1 + w) ^ (t0 + 1),
          acc.2 * (1 + gs.getD t0 0)) := by
  simp [projectStepChecked, divOpt, pow_ne_zero _ hw]

theorem project_checked_eq (m : DCFModel) (w : ℚ) (gs : List ℚ) (hw : (1 : ℚ) + w ≠ 0) :
    project_and_discount_fcfs_checked m w gs = some (project_and_discount_fcfs m w gs) := by
  unfold project_and_discount_fcfs_checked project_and_discount_fcfs
  generalize List.range m.explicit_years = l
  suffices h : ∀ (l : List ℕ) (acc : ℚ × ℚ),
      l.foldl (projectStepChecked w gs) (some acc)
        = some (l.foldl
            (fun acc t0 =>
              let fcf_t := acc.2 * (1 + gs.getD t0 0)
              (acc.1 + fcf_t / (1 + w) ^ (t0 + 1), fcf_t)) acc) by
    exact h l (0, m.initial_fcf)
  intro l
  induction l with
  | nil => intro acc; rfl
  | cons i l ih =>
    intro acc
    rw [List.foldl_cons, List.foldl_cons, projectStepChecked_some w gs acc i hw]
    exact ih _

theorem calculate_terminal_value_checked_eq (m : DCFModel) (f w g : ℚ)
    (hw : (1 : ℚ) + w ≠ 0) :
    calculate_terminal_value_checked m f w g = some (calculate_terminal_value m f w g) := by
  unfold calculate_terminal_value_checked calculate_terminal_value
  by_cases hle : w ≤ g
  · rw [if_pos hle, if_pos hle]
  · rw [if_neg hle, if_neg hle]
    have h1 : w - g ≠ 0 := sub_ne_zero.mpr (ne_of_gt (not_le.mp hle))
    have h2 : ((1 : ℚ) + w) ^ m.explicit_years ≠ 0 := pow_ne_zero _ hw
    rw [divOpt_of_ne _ _ h1]
    show divOpt (f * (1 + g) / (w - g)) ((1 + w) ^ m.explicit_years) = _
    rw [divOpt_of_ne _ _ h2]

theorem run_deterministic_valuation_checked_eq (m : DCFModel)
    (wacc long_term_growth_rate initial_growth step_down_growth : ℚ)
    (hw : (1 : ℚ) + wacc ≠ 0) (hs : m.shares_outstanding ≠ 0) :
    run_deterministic_valuation_checked m wacc long_term_growth_rate
        initial_growth step_down_growth
      = some (run_deterministic_valuation m wacc long_term_growth_rate
          initial_growth step_down_growth) := by
  simp only [run_deterministic_valuation_checked, run_deterministic_valuation]
  rw [project_checked_eq m wacc _ hw, Option.some_bind,
    calculate_terminal_value_checked_eq m _ wacc _ hw, Option.some_bind,
    divOpt_of_ne _ _ hs, Option.map_some']

theorem run_deterministic_valuation_checked_none (m : DCFModel)
    (wacc long_term_growth_rate initial_growth step_down_growth : ℚ)
    (hs : m.shares_outstanding = 0) :
    run_deterministic_valuation_checked m wacc long_term_growth_rate
        initial_growth step_down_growth = none := by
  simp only [run_deterministic_valuation_checked]
  cases hpr : project_and_discount_fcfs_checked m wacc
      (growthSchedule m initial_growth step_down_growth) with
  | none => rw [Option.none_bind]
  | some pr =>
    rw [Option.some_bind]
    cases htv : calculate_terminal_value_checked m pr.2 wacc long_term_growth_rate with
    | none => rw [Option.none_bind]
    | some tv =>
      rw [Option.some_bind, hs, divOpt, if_pos rfl, Option.map_none']

theorem one_add_clamped_ne_zero (xs : List ℚ) (i : ℕ) :
    (1 : ℚ) + (xs.map clampRate).getD i 0 ≠ 0 := by
  by_cases h : i < xs.length
  · rw [getD_map_clampRate xs i h]
    have hge : (1 : ℚ) / 100 ≤ clampRate (xs.getD i 0) := le_max_right _ _
    intro hc
    linarith
  · have hnone : (xs.map clampRate).getD i 0 = 0 := by
      rw [List.getD_eq_getElem?_getD, List.getElem?_eq_none]
      · rfl
      · rw [List.length_map]; omega
    rw [hnone]
    norm_num

theorem mcStepChecked_some (m : DCFModel) (cw cg grs : List ℚ) (results_list : List ℚ) (i : ℕ)
    (hw1 : (1 : ℚ) + cw.getD i 0 ≠ 0) :
    mcStepChecked m cw cg grs (some results_list) i
      = some (mcStep m cw cg grs results_list i) := by
  show (if cg.getD i 0 < cw.getD i 0 then _ else _) = _
  by_cases hcond : cg.getD i 0 < cw.getD i 0
  · rw [if_pos hcond, project_checked_eq m _ grs hw1]
    show (calculate_terminal_value_checked m _ _ _).bind _ = _
    rw [calculate_terminal_value_checked_eq m _ _ _ hw1]
    show (if 0 < m.shares_outstanding then _ else _) = _
    by_cases hs : 0 < m.shares_outstanding
    · rw [if_pos hs, divOpt_of_ne _ _ hs.ne', mcStep_surviving m cw cg grs results_list i hcond hs]
      rfl
    · rw [if_neg hs, mcStep_no_shares m cw cg grs results_list i hs]
  · rw [if_neg hcond, mcStep_discarded m cw cg grs results_list i hcond]

theorem mc_loop_checked_eq (m : DCFModel) (cw cg grs : List ℚ)
    (hcw : ∀ i : ℕ, (1 : ℚ) + cw.getD i 0 ≠ 0) (l : List ℕ) :
    ∀ acc : List ℚ,
      l.foldl (mcStepChecked m cw cg grs) (some acc)
        = some (l.foldl (mcStep m cw cg grs) acc) := by
  induction l with
  | nil => intro acc; rfl
  | cons i l ih =>
    intro acc
    rw [List.foldl_cons, List.foldl_cons, mcStepChecked_some m cw cg grs acc i (hcw i)]
    exact ih _

theorem run_monte_carlo_checked_eq (m : DCFModel) (simulated_waccs simulated_gs : List ℚ)
    (initial_growth step_down_growth : ℚ) (simulations : ℕ) :
    run_monte_carlo_checked m simulated_waccs simulated_gs
        initial_growth step_down_growth simulations
      = some (run_monte_carlo_sensitivity m simulated_waccs simulated_gs
          initial_growth step_down_growth simulations) := by
  have hfold : (List.range simulations).foldl
      (mcStep m (simulated_waccs.map clampRate) (simulated_gs.map clampRate)
        (growthSchedule m initial_growth step_down_growth)) []
      = mcResultsList m simulated_waccs simulated_gs initial_growth step_down_growth
          simulations := rfl
  simp only [run_monte_carlo_checked, run_monte_carlo_sensitivity]
  rw [mc_loop_checked_eq m _ _ _ (one_add_clamped_ne_zero simulated_waccs) _ [],
    Option.some_bind, hfold]
  by_cases hemp : (mcResultsList m simulated_waccs simulated_gs initial_growth
      step_down_growth simulations).isEmpty
  · rw [if_pos hemp, List.isEmpty_iff.mp hemp]
    rfl
  · rw [if_neg hemp]
    have hne : mcResultsList m simulated_waccs simulated_gs initial_growth
        step_down_growth simulations ≠ [] := fun h => hemp (by rw [h]; rfl)
    have hlen : ((mcResultsList m simulated_waccs simulated_gs initial_growth
        step_down_growth simulations).length : ℚ) ≠ 0 :=
      Nat.cast_ne_zero.mpr (fun h => hne (List.length_eq_zero.mp h))
    rw [divOpt_of_ne _ _ hlen, Option.some_bind, divOpt_of_ne _ _ hlen, Option.map_some']
    simp [hemp, npMean, npVariancePop]

theorem mc_loop_no_shares (m : DCFModel) (cw cg grs : List ℚ)
    (hs : ¬ 0 < m.shares_outstanding) :
    ∀ (l : List ℕ) (acc : List ℚ), l.foldl (mcStep m cw cg grs) acc = acc := by
  intro l
  induction l with
  | nil => intro acc; rfl
  | cons i l ih =>
    intro acc
    rw [List.foldl_cons, mcStep_no_shares m cw cg grs acc i hs]
    exact ih acc

theorem mcResultsList_no_shares (m : DCFModel) (simulated_waccs simulated_gs : List ℚ)
    (initial_growth step_down_growth : ℚ) (simulations : ℕ)
    (hs : m.shares_outstanding ≤ 0) :
    mcResultsList m simulated_waccs simulated_gs initial_growth step_down_growth
      simulations = [] :=
  mc_loop_no_shares m _ _ _ (not_lt.mpr hs) _ []

theorem run_mc_of_empty (m : DCFModel) (simulated_waccs simulated_gs : List ℚ)
    (initial_growth step_down_growth : ℚ) (simulations : ℕ)
    (h : mcResultsList m simulated_waccs simulated_gs initial_growth step_down_growth
      simulations = []) :
    run_monte_carlo_sensitivity m simulated_waccs simulated_gs initial_growth
      step_down_growth simulations = zeroSummary := by
  simp only [run_monte_carlo_sensitivity]
  rw [h]
  rfl

/-- C3 counterexample: at `wacc = 1/20 ≤ g = 2/25` the deterministic valuation
completes normally (the checked run returns `some`) and its terminal value is
quietly `0`, refuting the claim that `wacc ≤ g` is signaled to the caller as
an error in the deterministic path. -/
theorem C3_counterexample :
    (run_deterministic_valuation_checked ⟨100, 0, 1, 2⟩ (1 / 20) (2 / 25) 0 0).isSome = true ∧
    (run_deterministic_valuation ⟨100, 0, 1, 2⟩ (1 / 20) (2 / 25) 0 0).pv_terminal_value = 0 := by
  constructor
  · rw [run_deterministic_valuation_checked_eq ⟨100, 0, 1, 2⟩ (1 / 20) (2 / 25) 0 0
      (by norm_num) (by norm_num)]
    rfl
  · show calculate_terminal_value ⟨100, 0, 1, 2⟩ _ (1 / 20) (2 / 25) = 0
    rw [calculate_terminal_value, if_pos (by norm_num : (1 / 20 : ℚ) ≤ 2 / 25)]

/-- C3 amended: in the deterministic path `wacc ≤ long_term_growth_rate` is
NOT signaled to the caller: `_calculate_terminal_value` silently returns `0.0`
and (absent an unrelated division by zero, i.e. `wacc ≠ -1` and
`shares_outstanding ≠ 0`) `run_deterministic_valuation` completes normally,
returning a result whose `PV of Terminal Value` is `0`. -/
theorem C3_amended_silent_zero (m : DCFModel) (wacc g initial_growth step_down_growth : ℚ)
    (hle : wacc ≤ g) (hw : wacc ≠ -1) (hs : m.shares_outstanding ≠ 0) :
    (run_deterministic_valuation m wacc g initial_growth step_down_growth).pv_terminal_value
      = 0 ∧
    run_deterministic_valuation_checked m wacc g initial_growth step_down_growth
      = some (run_deterministic_valuation m wacc g initial_growth step_down_growth) := by
  have hw1 : (1 : ℚ) + wacc ≠ 0 := by
    intro h
    exact hw (by linarith)
  refine ⟨?_, run_deterministic_valuation_checked_eq m wacc g initial_growth
    step_down_growth hw1 hs⟩
  show calculate_terminal_value m _ wacc g = 0
  rw [calculate_terminal_value, if_pos hle]

/-- Witness for C3 (amended) at `wacc = 1/20`, `g = 2/25`. -/
theorem C3_witness :
    (1 / 20 : ℚ) ≤ 2 / 25 ∧ (1 / 20 : ℚ) ≠ -1 ∧
    (⟨100, 0, 1, 2⟩ : DCFModel).shares_outstanding ≠ 0 ∧
    ((run_deterministic_valuation ⟨100, 0, 1, 2⟩ (1 / 20) (2 / 25) 0 0).pv_terminal_value = 0 ∧
      run_deterministic_valuation_checked ⟨100, 0, 1, 2⟩ (1 / 20) (2 / 25) 0 0
        = some (run_deterministic_valuation ⟨100, 0, 1, 2⟩ (1 / 20) (2 / 25) 0 0)) :=
  ⟨by norm_num, by norm_num, by norm_num,
    C3_amended_silent_zero ⟨100, 0, 1, 2⟩ (1 / 20) (2 / 25) 0 0
      (by norm_num) (by norm_num) (by norm_num)⟩

/-- C7 counterexample: with `wacc_stdev = -1/100` the very first operation of
`run_monte_carlo_sensitivity`, the `norm.rvs` call at line 140, fails
scipy's argument validation (`ValueError` for a negative scale), so the call
raises — refuting the claim that no operation raises for every well-typed
numeric input "including zero or negative wacc_stdev / g_stdev". -/
theorem C7_counterexample :
    run_monte_carlo_with_sampling_checked ⟨100, 0, 1, 2⟩ (1 / 10) (-1 / 100) (1 / 50) 0
      [1 / 10] [1 / 50] 0 0 1 = none := by
  unfold run_monte_carlo_with_sampling_checked norm_rvs_checked
  rw [if_pos (by norm_num : (-1 / 100 : ℚ) < 0), Option.none_bind]

/-- C7 amended: for every combination of well-typed numeric inputs with
NONNEGATIVE `wacc_stdev` and `g_stdev`, no operation in the Monte Carlo
driver raises: a zero stdev degenerates to a point mass at the mean, a
positive stdev yields arbitrary drawn sequences (quantified here), and the
whole checked run — sampling, the per-draw loop (any division Python could
raise on returns `none`) and the statistics — succeeds, equal to the total
model at the produced sequences; domain violations are absorbed by the
per-draw discard policy, never propagated.  A negative stdev instead fails
`norm.rvs` argument validation (see the counterexample). -/
theorem C7_amended_nonneg_stdev_total (m : DCFModel)
    (wacc_mean wacc_stdev g_mean g_stdev : ℚ) (wacc_draws g_draws : List ℚ)
    (initial_growth step_down_growth : ℚ) (simulations : ℕ)
    (hw : 0 ≤ wacc_stdev) (hg : 0 ≤ g_stdev) :
    run_monte_carlo_with_sampling_checked m wacc_mean wacc_stdev g_mean g_stdev
        wacc_draws g_draws initial_growth step_down_growth simulations
      = some (run_monte_carlo_sensitivity m
          (norm_rvs_draws wacc_mean wacc_stdev simulations wacc_draws)
          (norm_rvs_draws g_mean g_stdev simulations g_draws)
          initial_growth step_down_growth simulations) := by
  unfold run_monte_carlo_with_sampling_checked norm_rvs_checked
  rw [if_neg (not_lt.mpr hw), Option.some_bind, if_neg (not_lt.mpr hg), Option.some_bind,
    run_monte_carlo_checked_eq]

/-- Witness for C7 (amended) with a positive `wacc_stdev = 1/100` (arbitrary
draw `[1/10]`) and a zero `g_stdev` (point mass at `g_mean = 1/50`). -/
theorem C7_witness :
    (0 : ℚ) ≤ 1 / 100 ∧ (0 : ℚ) ≤ 0 ∧
    run_monte_carlo_with_sampling_checked ⟨100, 0, 1, 2⟩ (1 / 10) (1 / 100) (1 / 50) 0
        [1 / 10] [1 / 50] 0 0 1
      = some (run_monte_carlo_sensitivity ⟨100, 0, 1, 2⟩
          (norm_rvs_draws (1 / 10) (1 / 100) 1 [1 / 10])
          (norm_rvs_draws (1 / 50) 0 1 [1 / 50]) 0 0 1) :=
  ⟨by norm_num, le_refl 0,
    C7_amended_nonneg_stdev_total ⟨100, 0, 1, 2⟩ (1 / 10) (1 / 100) (1 / 50) 0
      [1 / 10] [1 / 50] 0 0 1 (by norm_num) (le_refl 0)⟩

/-- C10: with non-positive `shares_outstanding` the Monte Carlo path does not
raise: the `shares_outstanding > 0` guard silently discards every draw (even
those whose clamped rates satisfy `wacc_i > g_i`), so the run returns the
all-zero summary (`Count = 0`, mean/median/stdev `0`, interval `[0, 0]`) and
the checked run succeeds with that same value. -/
theorem C10_nonpositive_shares_silent (m : DCFModel)
    (simulated_waccs simulated_gs : List ℚ)
    (initial_growth step_down_growth : ℚ) (simulations : ℕ)
    (hs : m.shares_outstanding ≤ 0) :
    mcResultsList m simulated_waccs simulated_gs initial_growth step_down_growth
        simulations = [] ∧
    run_monte_carlo_sensitivity m simulated_waccs simulated_gs initial_growth
        step_down_growth simulations = zeroSummary ∧
    run_monte_carlo_checked m simulated_waccs simulated_gs initial_growth
        step_down_growth simulations = some zeroSummary := by
  have h1 := mcResultsList_no_shares m simulated_waccs simulated_gs initial_growth
    step_down_growth simulations hs
  have h2 := run_mc_of_empty m simulated_waccs simulated_gs initial_growth
    step_down_growth simulations h1
  exact ⟨h1, h2, by rw [run_monte_carlo_checked_eq, h2]⟩

/-- Witness for C10 with `shares_outstanding = 0` and one draw whose clamped
discount rate strictly exceeds its clamped growth rate. -/
theorem C10_witness :
    (⟨100, 0, 0, 2⟩ : DCFModel).shares_outstanding ≤ 0 ∧
    (mcResultsList ⟨100, 0, 0, 2⟩ [1 / 10] [1 / 50] 0 0 1 = [] ∧
      run_monte_carlo_sensitivity ⟨100, 0, 0, 2⟩ [1 / 10] [1 / 50] 0 0 1 = zeroSummary ∧
      run_monte_carlo_checked ⟨100, 0, 0, 2⟩ [1 / 10] [1 / 50] 0 0 1 = some zeroSummary) :=
  ⟨le_refl 0, C10_nonpositive_shares_silent ⟨100, 0, 0, 2⟩ [1 / 10] [1 / 50] 0 0 1 (le_refl 0)⟩

/-- C4: whenever zero draws survive the discard filter the call does not fail
(the checked run returns `some`) and every statistic defaults to zero:
`Count = 0`, mean, median and (squared) standard deviation `0` and the 95%
interval `[0, 0]`. -/
theorem C4_zero_survivors_defaults (m : DCFModel) (simulated_waccs simulated_gs : List ℚ)
    (initial_growth step_down_growth : ℚ) (simulations : ℕ)
    (h : mcResultsList m simulated_waccs simulated_gs initial_growth step_down_growth
      simulations = []) :
    run_monte_carlo_sensitivity m simulated_waccs simulated_gs initial_growth
        step_down_growth simulations = zeroSummary ∧
    run_monte_carlo_checked m simulated_waccs simulated_gs initial_growth
        step_down_growth simulations = some zeroSummary := by
  have h2 := run_mc_of_empty m simulated_waccs simulated_gs initial_growth
    step_down_growth simulations h
  exact ⟨h2, by rw [run_monte_carlo_checked_eq, h2]⟩

/-- Witness for C4: one draw with `wacc_mean = 1/20` far below `g_mean = 2/25`
(both above the clamp floor) is discarded, so zero draws survive. -/
theorem C4_witness :
    mcResultsList ⟨100, 0, 1, 2⟩ [1 / 20] [2 / 25] 0 0 1 = [] ∧
    (run_monte_carlo_sensitivity ⟨100, 0, 1, 2⟩ [1 / 20] [2 / 25] 0 0 1 = zeroSummary ∧
      run_monte_carlo_checked ⟨100, 0, 1, 2⟩ [1 / 20] [2 / 25] 0 0 1 = some zeroSummary) :=
  have h : mcResultsList ⟨100, 0, 1, 2⟩ [1 / 20] [2 / 25] 0 0 1 = [] := by
    norm_num [mcResultsList, mcStep, clampRate, List.getD, max_def,
      show List.range 1 = [0] from rfl]
  ⟨h, C4_zero_survivors_defaults ⟨100, 0, 1, 2⟩ [1 / 20] [2 / 25] 0 0 1 h⟩

/-- C8 counterexample: with `shares_outstanding = -2` the deterministic
valuation completes without any division-by-zero failure, and with
`shares_outstanding = 0` the Monte Carlo path also completes normally —
refuting the claim that every non-positive `shares_outstanding` makes both
paths fail with a division-by-zero class of error. -/
theorem C8_counterexample :
    (run_deterministic_valuation_checked ⟨100, 0, -2, 2⟩ (1 / 10) (1 / 50) 0 0).isSome
      = true ∧
    (run_monte_carlo_checked ⟨100, 0, 0, 2⟩ [1 / 10] [1 / 50] 0 0 1).isSome = true := by
  constructor
  · rw [run_deterministic_valuation_checked_eq ⟨100, 0, -2, 2⟩ (1 / 10) (1 / 50) 0 0
      (by norm_num) (by norm_num)]
    rfl
  · rw [run_monte_carlo_checked_eq]
    rfl

/-- C8 amended: only `shares_outstanding = 0` produces the division-by-zero
failure, and only in the deterministic path; a nonzero (even negative)
`shares_outstanding` lets the deterministic path complete (for `wacc ≠ -1`),
and the Monte Carlo path never fails for non-positive shares — its
`shares_outstanding > 0` guard discards every draw instead. -/
theorem C8_amended_division_failure (m : DCFModel)
    (wacc long_term_growth_rate initial_growth step_down_growth : ℚ)
    (simulated_waccs simulated_gs : List ℚ) (simulations : ℕ) :
    (m.shares_outstanding = 0 →
      run_deterministic_valuation_checked m wacc long_term_growth_rate initial_growth
        step_down_growth = none) ∧
    (m.shares_outstanding ≠ 0 → (1 : ℚ) + wacc ≠ 0 →
      run_deterministic_valuation_checked m wacc long_term_growth_rate initial_growth
          step_down_growth
        = some (run_deterministic_valuation m wacc long_term_growth_rate initial_growth
            step_down_growth)) ∧
    (m.shares_outstanding ≤ 0 →
      run_monte_carlo_checked m simulated_waccs simulated_gs initial_growth
        step_down_growth simulations = some zeroSummary) := by
  refine ⟨fun hs => run_deterministic_valuation_checked_none m wacc long_term_growth_rate
      initial_growth step_down_growth hs,
    fun hs hw => run_deterministic_valuation_checked_eq m wacc long_term_growth_rate
      initial_growth step_down_growth hw hs,
    fun hs => ?_⟩
  rw [run_monte_carlo_checked_eq, run_mc_of_empty m simulated_waccs simulated_gs
    initial_growth step_down_growth simulations
    (mcResultsList_no_shares m simulated_waccs simulated_gs initial_growth
      step_down_growth simulations hs)]

/-- Witness for C8 (amended): zero shares make the deterministic checked run
fail; negative shares leave the Monte Carlo checked run succeeding. -/
theorem C8_witness :
    run_deterministic_valuation_checked ⟨100, 0, 0, 2⟩ (1 / 10) (1 / 50) 0 0 = none ∧
    run_monte_carlo_checked ⟨100, 0, -3, 2⟩ [1 / 10] [1 / 50] 0 0 1 = some zeroSummary :=
  ⟨(C8_amended_division_failure ⟨100, 0, 0, 2⟩ (1 / 10) (1 / 50) 0 0 [] [] 0).1 rfl,
    (C8_amended_division_failure ⟨100, 0, -3, 2⟩ (1 / 10) (1 / 50) 0 0
      [1 / 10] [1 / 50] 1).2.2 (by norm_num)⟩

theorem mem_growthSchedule (m : DCFModel) (ig sdg : ℚ) :
    ∀ x ∈ growthSchedule m ig sdg, x = ig ∨ x = sdg := by
  intro x hx
  rcases List.mem_append.mp hx with h | h
  · exact Or.inl (List.eq_of_mem_replicate h)
  · exact Or.inr (List.eq_of_mem_replicate h)

theorem growthSchedule_le_length (m : DCFModel) (ig sdg : ℚ) :
    m.explicit_years ≤ (growthSchedule m ig sdg).length := by
  simp [growthSchedule]
  omega

theorem fcfAt_nonneg (m : DCFModel) (gs : List ℚ) (h0 : 0 ≤ m.initial_fcf)
    (hgs : ∀ x ∈ gs, -1 ≤ x) (t : ℕ) : 0 ≤ fcfAt m gs t := by
  unfold fcfAt
  apply mul_nonneg h0
  apply List.prod_nonneg
  intro a ha
  obtain ⟨x, hx, rfl⟩ := List.mem_map.mp ha
  have := hgs x (List.mem_of_mem_take hx)
  linarith

theorem fair_value_eq (m : DCFModel) (w g ig sdg : ℚ) (hgw : g < w) :
    (run_deterministic_valuation m w g ig sdg).fair_value_per_share
      = ((∑ t ∈ Finset.range m.explicit_years,
            fcfAt m (growthSchedule m ig sdg) (t + 1) / (1 + w) ^ (t + 1))
          + fcfAt m (growthSchedule m ig sdg) m.explicit_years * (1 + g)
              / ((w - g) * (1 + w) ^ m.explicit_years)
          - m.net_debt) / m.shares_outstanding := by
  show ((project_and_discount_fcfs m w (growthSchedule m ig sdg)).1
      + calculate_terminal_value m (project_and_discount_fcfs m w (growthSchedule m ig sdg)).2
          w g - m.net_debt) / m.shares_outstanding = _
  rw [project_and_discount_fcfs_eq m w _ (growthSchedule_le_length m ig sdg),
    calculate_terminal_value, if_neg (not_le.mpr hgw), div_div]

/-- C5: holding the profile (with `initial_fcf ≥ 0`), the two-stage schedule
(rates ≥ -1) and the terminal growth rate fixed, the Fair Value Per Share of
`run_deterministic_valuation` is monotonically decreasing in the discount
rate; holding the discount rate fixed it is monotonically increasing in the
terminal growth rate — over the admissible region where the growth rate is at
least the model's 1% floor and strictly below the discount rate. -/
theorem C5_fair_value_monotone (m : DCFModel) (initial_growth step_down_growth : ℚ)
    (h0 : 0 ≤ m.initial_fcf) (hig : -1 ≤ initial_growth) (hsdg : -1 ≤ step_down_growth)
    (hs : 0 < m.shares_outstanding)
    (w1 w2 g g1 g2 w : ℚ)
    (hg : 1 / 100 ≤ g) (hgw1 : g < w1) (h12 : w1 ≤ w2)
    (hg1 : 1 / 100 ≤ g1) (hg12 : g1 ≤ g2) (hg2w : g2 < w) :
    (run_deterministic_valuation m w2 g initial_growth step_down_growth).fair_value_per_share
      ≤ (run_deterministic_valuation m w1 g initial_growth
          step_down_growth).fair_value_per_share ∧
    (run_deterministic_valuation m w g1 initial_growth step_down_growth).fair_value_per_share
      ≤ (run_deterministic_valuation m w g2 initial_growth
          step_down_growth).fair_value_per_share := by
  have hmem : ∀ x ∈ growthSchedule m initial_growth step_down_growth, (-1 : ℚ) ≤ x := by
    intro x hx
    rcases mem_growthSchedule m initial_growth step_down_growth x hx with h | h
    · rw [h]; exact hig
    · rw [h]; exact hsdg
  have hfcf : ∀ t : ℕ, 0 ≤ fcfAt m (growthSchedule m initial_growth step_down_growth) t :=
    fcfAt_nonneg m _ h0 hmem
  constructor
  · have hgw2 : g < w2 := lt_of_lt_of_le hgw1 h12
    have hw1pos : 0 < 1 + w1 := by linarith
    rw [fair_value_eq m w1 g initial_growth step_down_growth hgw1,
      fair_value_eq m w2 g initial_growth step_down_growth hgw2]
    refine (div_le_div_iff_of_pos_right hs).mpr (sub_le_sub_right (add_le_add ?_ ?_) _)
    · refine Finset.sum_le_sum ?_
      intro t ht
      exact div_le_div_of_nonneg_left (hfcf (t + 1)) (pow_pos hw1pos (t + 1))
        (pow_le_pow_left₀ hw1pos.le (by linarith) (t + 1))
    · refine div_le_div_of_nonneg_left (mul_nonneg (hfcf m.explicit_years) (by linarith))
        (mul_pos (by linarith) (pow_pos hw1pos m.explicit_years)) ?_
      exact mul_le_mul (by linarith)
        (pow_le_pow_left₀ hw1pos.le (by linarith) m.explicit_years)
        (pow_pos hw1pos m.explicit_years).le (by linarith)
  · have hg1w : g1 < w := lt_of_le_of_lt hg12 hg2w
    have hwpos : 0 < 1 + w := by linarith
    rw [fair_value_eq m w g1 initial_growth step_down_growth hg1w,
      fair_value_eq m w g2 initial_growth step_down_growth hg2w]
    refine (div_le_div_iff_of_pos_right hs).mpr (sub_le_sub_right (add_le_add le_rfl ?_) _)
    refine div_le_div₀ (mul_nonneg (hfcf m.explicit_years) (by linarith))
      (mul_le_mul_of_nonneg_left (by linarith) (hfcf m.explicit_years))
      (mul_pos (by linarith) (pow_pos hwpos m.explicit_years)) ?_
    exact mul_le_mul_of_nonneg_right (by linarith) (pow_pos hwpos m.explicit_years).le

/-- Witness for C5: profile `⟨100, 10, 5, 2⟩`, flat schedule, discount rates
`1/10 ≤ 1/5` and growth rates `1/50 ≤ 1/25 < 1/10`. -/
theorem C5_witness :
    (0 : ℚ) ≤ (⟨100, 10, 5, 2⟩ : DCFModel).initial_fcf ∧ (-1 : ℚ) ≤ 0 ∧
    (0 : ℚ) < (⟨100, 10, 5, 2⟩ : DCFModel).shares_outstanding ∧
    (1 / 100 : ℚ) ≤ 1 / 50 ∧ (1 / 50 : ℚ) < 1 / 10 ∧ (1 / 10 : ℚ) ≤ 1 / 5 ∧
    (1 / 50 : ℚ) ≤ 1 / 25 ∧ (1 / 25 : ℚ) < 1 / 10 ∧
    ((run_deterministic_valuation ⟨100, 10, 5, 2⟩ (1 / 5) (1 / 50) 0 0).fair_value_per_share
        ≤ (run_deterministic_valuation ⟨100, 10, 5, 2⟩ (1 / 10) (1 / 50) 0
            0).fair_value_per_share ∧
      (run_deterministic_valuation ⟨100, 10, 5, 2⟩ (1 / 10) (1 / 50) 0 0).fair_value_per_share
        ≤ (run_deterministic_valuation ⟨100, 10, 5, 2⟩ (1 / 10) (1 / 25) 0
            0).fair_value_per_share) :=
  ⟨by norm_num, by norm_num, by norm_num, by norm_num, by norm_num, by norm_num,
    by norm_num, by norm_num,
    C5_fair_value_monotone ⟨100, 10, 5, 2⟩ 0 0 (by norm_num) (by norm_num) (by norm_num)
      (by norm_num) (1 / 10) (1 / 5) (1 / 50) (1 / 50) (1 / 25) (1 / 10)
      (by norm_num) (by norm_num) (by norm_num) (by norm_num) (by norm_num) (by norm_num)⟩

theorem getD_replicate_of_lt (a d : ℚ) (n i : ℕ) (h : i < n) :
    (List.replicate n a).getD i d = a := by
  rw [List.getD_eq_getElem?_getD, List.getElem?_replicate, if_pos h]
  rfl

theorem mcResultsList_replicate (m : DCFModel) (ig sdg wm gm : ℚ) (n : ℕ)
    (hs : 0 < m.shares_outstanding) (hwm : 1 / 100 ≤ wm) (hgm : 1 / 100 ≤ gm)
    (hlt : gm < wm) :
    mcResultsList m (List.replicate n wm) (List.replicate n gm) ig sdg n
      = List.replicate n (perShareValue m wm gm ig sdg) := by
  have hmapw : (List.replicate n wm).map clampRate = List.replicate n wm := by
    rw [List.map_replicate, clampRate, max_eq_left hwm]
  have hmapg : (List.replicate n gm).map clampRate = List.replicate n gm := by
    rw [List.map_replicate, clampRate, max_eq_left hgm]
  unfold mcResultsList
  rw [hmapw, hmapg, mcLoop_eq m _ _ _ _ _ hs, List.nil_append]
  have hfilter : (List.range n).filter
      (fun i => decide ((List.replicate n gm).getD i 0 < (List.replicate n wm).getD i 0))
      = List.range n := by
    refine List.filter_eq_self.mpr ?_
    intro i hi
    rw [getD_replicate_of_lt gm 0 n i (List.mem_range.mp hi),
      getD_replicate_of_lt wm 0 n i (List.mem_range.mp hi)]
    exact decide_eq_true hlt
  rw [hfilter]
  have hmap : (List.range n).map
      (fun i =>
        ((project_and_discount_fcfs m ((List.replicate n wm).getD i 0) (growthSchedule m ig sdg)).1
          + calculate_terminal_value m
              (project_and_discount_fcfs m ((List.replicate n wm).getD i 0)
                (growthSchedule m ig sdg)).2
              ((List.replicate n wm).getD i 0) ((List.replicate n gm).getD i 0)
          - m.net_debt) / m.shares_outstanding)
      = (List.range n).map (fun _ => perShareValue m wm gm ig sdg) := by
    refine List.map_congr_left ?_
    intro i hi
    rw [getD_replicate_of_lt gm 0 n i (List.mem_range.mp hi),
      getD_replicate_of_lt wm 0 n i (List.mem_range.mp hi)]
    rfl
  rw [hmap, List.map_const', List.length_range]

/-- C6 counterexample: with both stdevs zero modelled as constant draw
sequences, at `wacc_mean = 1/20` and `g_mean = 2/25` every draw is discarded
(`0.05 < 0.08`), so the Monte Carlo Mean is `0`, while the deterministic Fair
Value Per Share (with terminal value silently zeroed) is `82000/441 ≠ 0` —
refuting the unconditional equality of the two. -/
theorem C6_counterexample :
    (run_monte_carlo_sensitivity ⟨100, 0, 1, 2⟩ (List.replicate 1 (1 / 20))
        (List.replicate 1 (2 / 25)) 0 0 1).mean
      ≠ (run_deterministic_valuation ⟨100, 0, 1, 2⟩ (1 / 20) (2 / 25) 0 0).fair_value_per_share := by
  have h1 : mcResultsList ⟨100, 0, 1, 2⟩ (List.replicate 1 (1 / 20))
      (List.replicate 1 (2 / 25)) 0 0 1 = [] := by
    norm_num [mcResultsList, mcStep, clampRate, List.getD, max_def,
      show List.range 1 = [0] from rfl]
  rw [run_mc_of_empty ⟨100, 0, 1, 2⟩ (List.replicate 1 (1 / 20))
    (List.replicate 1 (2 / 25)) 0 0 1 h1]
  show (0 : ℚ) ≠ _
  have h2 : (run_deterministic_valuation ⟨100, 0, 1, 2⟩ (1 / 20) (2 / 25) 0
      0).fair_value_per_share = 82000 / 441 := by
    show ((project_and_discount_fcfs ⟨100, 0, 1, 2⟩ (1 / 20)
        (growthSchedule ⟨100, 0, 1, 2⟩ 0 0)).1
      + calculate_terminal_value ⟨100, 0, 1, 2⟩ _ (1 / 20) (2 / 25) - _) / _ = _
    norm_num [project_and_discount_fcfs, calculate_terminal_value, growthSchedule,
      List.getD, show List.range 2 = [0, 1] from rfl]
  rw [h2]
  norm_num

/-- C6 amended: when both stdevs are zero (every draw equals the mean pair)
AND the mean pair survives the driver's preprocessing — i.e. both means are at
least the 1% clamp floor, `wacc_mean > g_mean`, `shares_outstanding > 0` and
at least one draw is taken — the Monte Carlo Mean equals the deterministic
Fair Value Per Share at `(wacc_mean, g_mean)` with the same growth-stage
inputs.  (Without those provisos the equality fails: see the counterexample.) -/
theorem C6_degenerate_mean_eq_deterministic (m : DCFModel)
    (initial_growth step_down_growth wacc_mean g_mean : ℚ) (n : ℕ) (hn : 0 < n)
    (hs : 0 < m.shares_outstanding) (hwm : 1 / 100 ≤ wacc_mean) (hgm : 1 / 100 ≤ g_mean)
    (hlt : g_mean < wacc_mean) :
    (run_monte_carlo_sensitivity m (List.replicate n wacc_mean) (List.replicate n g_mean)
        initial_growth step_down_growth n).mean
      = (run_deterministic_valuation m wacc_mean g_mean initial_growth
          step_down_growth).fair_value_per_share := by
  have hres := mcResultsList_replicate m initial_growth step_down_growth wacc_mean g_mean n
    hs hwm hgm hlt
  simp only [run_monte_carlo_sensitivity]
  rw [hres]
  have hne : (List.replicate n (perShareValue m wacc_mean g_mean initial_growth
      step_down_growth)).isEmpty = false := by
    rw [List.isEmpty_replicate]
    simp [Nat.pos_iff_ne_zero.mp hn]
  rw [if_neg (by rw [hne]; exact Bool.false_ne_true)]
  show npMean _ = _
  rw [npMean, List.sum_replicate, List.length_replicate, nsmul_eq_mul,
    mul_div_cancel_left₀ _ (Nat.cast_ne_zero.mpr (Nat.pos_iff_ne_zero.mp hn))]
  rfl

/-- Witness for C6 (amended) with one draw at `wacc_mean = 1/10`,
`g_mean = 1/50`. -/
theorem C6_witness :
    (0 : ℕ) < 1 ∧ (0 : ℚ) < (⟨100, 10, 5, 2⟩ : DCFModel).shares_outstanding ∧
    (1 / 100 : ℚ) ≤ 1 / 10 ∧ (1 / 100 : ℚ) ≤ 1 / 50 ∧ (1 / 50 : ℚ) < 1 / 10 ∧
    (run_monte_carlo_sensitivity ⟨100, 10, 5, 2⟩ (List.replicate 1 (1 / 10))
        (List.replicate 1 (1 / 50)) 0 0 1).mean
      = (run_deterministic_valuation ⟨100, 10, 5, 2⟩ (1 / 10) (1 / 50) 0
          0).fair_value_per_share :=
  ⟨by norm_num, by norm_num, by norm_num, by norm_num, by norm_num,
    C6_degenerate_mean_eq_deterministic ⟨100, 10, 5, 2⟩ 0 0 (1 / 10) (1 / 50) 1
      (by norm_num) (by norm_num) (by norm_num) (by norm_num) (by norm_num)⟩

theorem mcStep_length_le (m : DCFModel) (cw cg grs : List ℚ) (acc : List ℚ) (i : ℕ) :
    (mcStep m cw cg grs acc i).length ≤ acc.length + 1 := by
  by_cases hcond : cg.getD i 0 < cw.getD i 0
  · by_cases hs : 0 < m.shares_outstanding
    · rw [mcStep_surviving m cw cg grs acc i hcond hs]
      simp
    · rw [mcStep_no_shares m cw cg grs acc i hs]
      omega
  · rw [mcStep_discarded m cw cg grs acc i hcond]
    omega

theorem mc_loop_length (m : DCFModel) (cw cg grs : List ℚ) :
    ∀ (l : List ℕ) (acc : List ℚ),
      (l.foldl (mcStep m cw cg grs) acc).length ≤ acc.length + l.length := by
  intro l
  induction l with
  | nil => intro acc; simp
  | cons i l ih =>
    intro acc
    rw [List.foldl_cons]
    have h1 := ih (mcStep m cw cg grs acc i)
    have h2 := mcStep_length_le m cw cg grs acc i
    simp only [List.length_cons]
    omega

theorem sortAsc_sorted (l : List ℚ) :
    ∀ i j : ℕ, i ≤ j → j < (sortAsc l).length →
      (sortAsc l).getD i 0 ≤ (sortAsc l).getD j 0 := by
  intro i j hij hj
  have hi : i < (sortAsc l).length := lt_of_le_of_lt hij hj
  rw [List.getD_eq_getElem?_getD, List.getD_eq_getElem?_getD,
    List.getElem?_eq_getElem hi, List.getElem?_eq_getElem hj]
  simp only [Option.getD_some]
  rcases eq_or_lt_of_le hij with rfl | hlt
  · exact le_refl _
  · have hp : List.Sorted (· ≤ ·) (sortAsc l) := List.sorted_insertionSort (· ≤ ·) l
    have := hp.rel_get_of_lt (show (⟨i, hi⟩ : Fin (sortAsc l).length) < ⟨j, hj⟩ from hlt)
    simpa [List.get_eq_getElem] using this

theorem interp_mono (s : List ℚ)
    (hsort : ∀ i j : ℕ, i ≤ j → j < s.length → s.getD i 0 ≤ s.getD j 0)
    (x y : ℚ) (hx0 : 0 ≤ x) (hxy : x ≤ y) (hy : y ≤ (s.length : ℚ) - 1) :
    s.getD (⌊x⌋).toNat 0 + (x - (⌊x⌋ : ℚ)) * (s.getD (⌈x⌉).toNat 0 - s.getD (⌊x⌋).toNat 0)
      ≤ s.getD (⌊y⌋).toNat 0
        + (y - (⌊y⌋ : ℚ)) * (s.getD (⌈y⌉).toNat 0 - s.getD (⌊y⌋).toNat 0) := by
  have hy0 : 0 ≤ y := hx0.trans hxy
  have hxtop : x ≤ (s.length : ℚ) - 1 := hxy.trans hy
  have hfx0 : 0 ≤ ⌊x⌋ := Int.floor_nonneg.mpr hx0
  have hfy0 : 0 ≤ ⌊y⌋ := Int.floor_nonneg.mpr hy0
  have hcx_le : ⌈x⌉ ≤ (s.length : ℤ) - 1 := by
    rw [Int.ceil_le]
    push_cast
    exact hxtop
  have hcy_le : ⌈y⌉ ≤ (s.length : ℤ) - 1 := by
    rw [Int.ceil_le]
    push_cast
    exact hy
  have hfx_le : ⌊x⌋ ≤ ⌈x⌉ := Int.floor_le_ceil x
  have hfy_le : ⌊y⌋ ≤ ⌈y⌉ := Int.floor_le_ceil y
  have hcx_lt : (⌈x⌉).toNat < s.length := by omega
  have hcy_lt : (⌈y⌉).toNat < s.length := by omega
  have hfx_lt : (⌊x⌋).toNat < s.length := by omega
  have hfy_lt : (⌊y⌋).toNat < s.length := by omega
  have ha1b1 : s.getD (⌊x⌋).toNat 0 ≤ s.getD (⌈x⌉).toNat 0 :=
    hsort _ _ (by omega) hcx_lt
  have ha2b2 : s.getD (⌊y⌋).toNat 0 ≤ s.getD (⌈y⌉).toNat 0 :=
    hsort _ _ (by omega) hcy_lt
  have hfracx0 : 0 ≤ x - (⌊x⌋ : ℚ) := by
    have := Int.floor_le x
    linarith
  have hfracx1 : x - (⌊x⌋ : ℚ) ≤ 1 := by
    have := Int.lt_floor_add_one x
    push_cast at this
    linarith
  have hfracy0 : 0 ≤ y - (⌊y⌋ : ℚ) := by
    have := Int.floor_le y
    linarith
  by_cases hcf : ⌈x⌉ ≤ ⌊y⌋
  · have hb1a2 : s.getD (⌈x⌉).toNat 0 ≤ s.getD (⌊y⌋).toNat 0 :=
      hsort _ _ (by omega) hfy_lt
    have hup : (x - (⌊x⌋ : ℚ)) * (s.getD (⌈x⌉).toNat 0 - s.getD (⌊x⌋).toNat 0)
        ≤ s.getD (⌈x⌉).toNat 0 - s.getD (⌊x⌋).toNat 0 := by
      nlinarith
    have hlow : 0 ≤ (y - (⌊y⌋ : ℚ)) * (s.getD (⌈y⌉).toNat 0 - s.getD (⌊y⌋).toNat 0) :=
      mul_nonneg hfracy0 (by linarith)
    linarith
  · have hff : ⌊x⌋ ≤ ⌊y⌋ := Int.floor_le_floor hxy
    have hcx1 : ⌈x⌉ ≤ ⌊x⌋ + 1 := Int.ceil_le_floor_add_one x
    have hcx_eq : ⌈x⌉ = ⌊x⌋ + 1 := by omega
    have hff_eq : ⌊x⌋ = ⌊y⌋ := by omega
    by_cases hcy : ⌈y⌉ ≤ ⌊y⌋
    · have hyint : y = ((⌊y⌋ : ℤ) : ℚ) := by
        have h1 : y ≤ ((⌈y⌉ : ℤ) : ℚ) := Int.le_ceil y
        have h2 : ((⌈y⌉ : ℤ) : ℚ) ≤ ((⌊y⌋ : ℤ) : ℚ) := by exact_mod_cast hcy
        have h3 : ((⌊y⌋ : ℤ) : ℚ) ≤ y := Int.floor_le y
        linarith
      have hxeqy : x = y := by
        have h4 : ((⌊x⌋ : ℤ) : ℚ) ≤ x := Int.floor_le x
        have h5 : ((⌊x⌋ : ℤ) : ℚ) = ((⌊y⌋ : ℤ) : ℚ) := by exact_mod_cast hff_eq
        linarith
      rw [hxeqy]
    · have hcy_eq : ⌈y⌉ = ⌊y⌋ + 1 := by
        have := Int.ceil_le_floor_add_one y
        omega
      have e1 : ((⌊y⌋ : ℤ) : ℚ) = ((⌊x⌋ : ℤ) : ℚ) := by exact_mod_cast hff_eq.symm
      have e2 : (⌊y⌋).toNat = (⌊x⌋).toNat := by omega
      have e3 : (⌈y⌉).toNat = (⌈x⌉).toNat := by omega
      rw [e1, e2, e3]
      have hmul : (x - (⌊x⌋ : ℚ)) * (s.getD (⌈x⌉).toNat 0 - s.getD (⌊x⌋).toNat 0)
          ≤ (y - (⌊x⌋ : ℚ)) * (s.getD (⌈x⌉).toNat 0 - s.getD (⌊x⌋).toNat 0) :=
        mul_le_mul_of_nonneg_right (by linarith) (by linarith [ha1b1])
      linarith

theorem npPercentile_mono (l : List ℚ) (hne : l ≠ []) (q1 q2 : ℚ)
    (h0 : 0 ≤ q1) (h12 : q1 ≤ q2) (h100 : q2 ≤ 100) :
    npPercentile l q1 ≤ npPercentile l q2 := by
  have hlen : (sortAsc l).length = l.length :=
    (List.perm_insertionSort (· ≤ ·) l).length_eq
  have hlen1 : 1 ≤ (sortAsc l).length := by
    rw [hlen]
    exact List.length_pos.mpr hne
  have hlenq : (1 : ℚ) ≤ ((sortAsc l).length : ℚ) := by exact_mod_cast hlen1
  show (sortAsc l).getD _ 0 + _ ≤ (sortAsc l).getD _ 0 + _
  apply interp_mono (sortAsc l) (sortAsc_sorted l)
  · apply div_nonneg _ (by norm_num : (0 : ℚ) ≤ 100)
    apply mul_nonneg h0
    linarith
  · apply (div_le_div_iff_of_pos_right (by norm_num : (0 : ℚ) < 100)).mpr
    apply mul_le_mul_of_nonneg_right h12
    linarith
  · calc q2 * (((sortAsc l).length : ℚ) - 1) / 100
        ≤ 100 * (((sortAsc l).length : ℚ) - 1) / 100 := by
          apply (div_le_div_iff_of_pos_right (by norm_num : (0 : ℚ) < 100)).mpr
          apply mul_le_mul_of_nonneg_right h100
          linarith
      _ = ((sortAsc l).length : ℚ) - 1 :=
          mul_div_cancel_left₀ _ (by norm_num)

/-- C9: `Count` never exceeds the number of draws, and whenever `Count > 0`
the reported 95% interval and median satisfy `ci_low ≤ median ≤ ci_high`
(the interpolated 2.5th percentile is at most the 50th, which is at most the
97.5th). -/
theorem C9_count_bound_and_ordered_percentiles (m : DCFModel)
    (simulated_waccs simulated_gs : List ℚ)
    (initial_growth step_down_growth : ℚ) (simulations : ℕ) :
    (run_monte_carlo_sensitivity m simulated_waccs simulated_gs initial_growth
        step_down_growth simulations).count ≤ simulations ∧
    (0 < (run_monte_carlo_sensitivity m simulated_waccs simulated_gs initial_growth
        step_down_growth simulations).count →
      (run_monte_carlo_sensitivity m simulated_waccs simulated_gs initial_growth
          step_down_growth simulations).ci_low
        ≤ (run_monte_carlo_sensitivity m simulated_waccs simulated_gs initial_growth
            step_down_growth simulations).median ∧
      (run_monte_carlo_sensitivity m simulated_waccs simulated_gs initial_growth
          step_down_growth simulations).median
        ≤ (run_monte_carlo_sensitivity m simulated_waccs simulated_gs initial_growth
            step_down_growth simulations).ci_high) := by
  constructor
  · show (mcResultsList m simulated_waccs simulated_gs initial_growth step_down_growth
      simulations).length ≤ simulations
    have h := mc_loop_length m (simulated_waccs.map clampRate) (simulated_gs.map clampRate)
      (growthSchedule m initial_growth step_down_growth) (List.range simulations) []
    simpa [List.length_range] using h
  · intro hcount
    have hne : mcResultsList m simulated_waccs simulated_gs initial_growth step_down_growth
        simulations ≠ [] := by
      intro h
      have : (mcResultsList m simulated_waccs simulated_gs initial_growth step_down_growth
          simulations).length = 0 := by rw [h]; rfl
      have hc : (run_monte_carlo_sensitivity m simulated_waccs simulated_gs initial_growth
          step_down_growth simulations).count
          = (mcResultsList m simulated_waccs simulated_gs initial_growth step_down_growth
              simulations).length := rfl
      omega
    have hemp : ¬ (mcResultsList m simulated_waccs simulated_gs initial_growth
        step_down_growth simulations).isEmpty = true :=
      fun h => hne (List.isEmpty_iff.mp h)
    constructor
    · show (if _ then (0 : ℚ) else _) ≤ (if _ then (0 : ℚ) else _)
      rw [if_neg hemp, if_neg hemp]
      exact npPercentile_mono _ hne (5 / 2) 50 (by norm_num) (by norm_num) (by norm_num)
    · show (if _ then (0 : ℚ) else _) ≤ (if _ then (0 : ℚ) else _)
      rw [if_neg hemp, if_neg hemp]
      exact npPercentile_mono _ hne 50 (195 / 2) (by norm_num) (by norm_num) (by norm_num)

/-- Witness for C9 with one surviving draw (`clamp 1/10 > clamp 1/50`). -/
theorem C9_witness :
    0 < (run_monte_carlo_sensitivity ⟨100, 0, 1, 2⟩ [1 / 10] [1 / 50] 0 0 1).count ∧
    ((run_monte_carlo_sensitivity ⟨100, 0, 1, 2⟩ [1 / 10] [1 / 50] 0 0 1).count ≤ 1 ∧
      ((run_monte_carlo_sensitivity ⟨100, 0, 1, 2⟩ [1 / 10] [1 / 50] 0 0 1).ci_low
          ≤ (run_monte_carlo_sensitivity ⟨100, 0, 1, 2⟩ [1 / 10] [1 / 50] 0 0 1).median ∧
        (run_monte_carlo_sensitivity ⟨100, 0, 1, 2⟩ [1 / 10] [1 / 50] 0 0 1).median
          ≤ (run_monte_carlo_sensitivity ⟨100, 0, 1, 2⟩ [1 / 10] [1 / 50] 0 0 1).ci_high)) :=
  have h : 0 < (run_monte_carlo_sensitivity ⟨100, 0, 1, 2⟩ [1 / 10] [1 / 50] 0 0 1).count := by
    show 0 < (mcResultsList ⟨100, 0, 1, 2⟩ [1 / 10] [1 / 50] 0 0 1).length
    norm_num [mcResultsList, mcStep, clampRate, List.getD, max_def,
      show List.range 1 = [0] from rfl]
  ⟨h,
    (C9_count_bound_and_ordered_percentiles ⟨100, 0, 1, 2⟩ [1 / 10] [1 / 50] 0 0 1).1,
    (C9_count_bound_and_ordered_percentiles ⟨100, 0, 1, 2⟩ [1 / 10] [1 / 50] 0 0 1).2 h⟩
